import Mathlib

/-!
Shallow embedding of `src/main.py` (YouTube Railway downloader orchestration
script).  The external collaborator (yt-dlp), the filesystem and the
interrupt behaviour of the operating system are modelled by an environment
oracle `Env`; the mutable run state (workspace directory listing, a clock
counting blocking calls, and the event trace) is the world `W`.

Faithfulness notes, keyed to the source:
* `test_youtube_access` (main.py:41-66): tries each probe URL in order with a
  metadata-only extraction; the per-URL `except Exception` catches extraction
  errors and continues, but does NOT catch `KeyboardInterrupt` (which is a
  `BaseException`, not an `Exception` in Python), so an interrupt propagates.
* `download_video` (main.py:68-116): metadata extraction, then the download
  call, then a scan of `os.listdir(download_dir)` for the first file name not
  starting with '.'; any `Exception` anywhere inside yields `None`;
  `KeyboardInterrupt` propagates.
* the main loop (main.py:154-175): per URL calls `download_video`; on success
  runs `os.remove` under a bare `try/except: pass` (so remove failures are
  swallowed); sleeps 10 seconds after every item except the last
  (`if i < len(test_videos)`).
* `cleanup` (main.py:118-125): `shutil.rmtree` guarded by `os.path.exists`,
  any `Exception` caught and logged; total.
* `main` (main.py:127-185): `tempfile.mkdtemp` runs before the `try`, so a
  creation failure propagates out of `main` and the process exits non-zero
  with nothing else attempted; otherwise the `try/except KeyboardInterrupt/
  except Exception/finally` structure guarantees `cleanup` runs exactly once.

Interrupts are modelled at the blocking calls (the extraction/download calls
into the collaborator and the inter-download sleep): `Env.interruptAt = some n`
raises `KeyboardInterrupt` at the n-th blocking call of the run.
-/

namespace YTRail

/-- Observable events of a run, in order of occurrence. -/
inductive Event where
  | probeAttempt (url : String)
  | dvExtract (url : String)
  | dvDownload (url : String)
  | removeAttempt (path : String)
  | sleepEvt (secs : Nat)
  | cleanupCall
  | rmtreeCall
deriving DecidableEq

/-- Exceptions: `ki` is Python's `KeyboardInterrupt` (a `BaseException`,
not caught by `except Exception`); `err` is any ordinary `Exception`. -/
inductive Exn where
  | ki
  | err
deriving DecidableEq

/-- Environment oracle: behaviour of yt-dlp, the filesystem, and the user. -/
structure Env where
  /-- does metadata extraction succeed for this URL in the probe? -/
  probeOk : String → Bool
  /-- does metadata extraction succeed for this URL in `download_video`? -/
  extractOk : String → Bool
  /-- does `ydl.download([url])` return without raising? -/
  downloadOk : String → Bool
  /-- file names `ydl.download([url])` writes into the workspace. -/
  written : String → List String
  /-- does `os.remove(path)` succeed? -/
  removeOk : String → Bool
  /-- does `shutil.rmtree` succeed? -/
  rmtreeOk : Bool
  /-- does `tempfile.mkdtemp()` succeed? -/
  mkdtempOk : Bool
  /-- index of the blocking call at which `KeyboardInterrupt` fires, if any. -/
  interruptAt : Option Nat

/-- World state: the workspace listing (`none` = directory does not exist),
the count of blocking calls made so far, and the event trace. -/
structure W where
  files : Option (List String)
  clock : Nat
  events : List Event

/-- `os.path.join(dir, f)`. -/
def joinPath (dir f : String) : String := dir ++ "/" ++ f

/-- Python's `filename.startswith('.')`: the first character is a dot.
(Stated on the character list so that closed terms reduce.) -/
def startsWithDot (f : String) : Bool :=
  match f.data with
  | [] => false
  | c :: _ => c == '.'

/-- The scan at main.py:99-100: first listing entry not starting with '.'. -/
def firstNonHidden : List String → Option String
  | [] => none
  | f :: rest => if startsWithDot f then firstNonHidden rest else some f

/-- Does the interrupt fire at the current blocking call? -/
def intHere (env : Env) (w : W) : Bool :=
  match env.interruptAt with
  | none => false
  | some t => t == w.clock

/-- Record a blocking call: advance the clock and log the event. -/
def tick (w : W) (e : Event) : W :=
  { w with clock := w.clock + 1, events := w.events ++ [e] }

/-- main.py:41-66, `YouTubeDownloader.test_youtube_access`, parametrised by
the probe URL list (the source hardcodes `test_urls`).  Per URL: attempt a
metadata-only extraction; success returns `True` immediately; an `Exception`
is caught and the loop continues; after the list is exhausted return `False`. -/
def test_youtube_access (env : Env) : List String → W → Except Exn Bool × W
  | [], w => (.ok false, w)
  | u :: rest, w =>
    let hit := intHere env w
    let w1 := tick w (.probeAttempt u)
    if hit then (.error .ki, w1)
    else if env.probeOk u then (.ok true, w1)
    else test_youtube_access env rest w1

/-- main.py:68-116, `YouTubeDownloader.download_video`: metadata extraction
(an `Exception` is caught, yielding `None`), then `ydl.download([url])`
(likewise), then the workspace is scanned for the first non-hidden file name,
whose joined path is returned; if none is found, `None` is returned. -/
def download_video (env : Env) (dir url : String) (w : W) :
    Except Exn (Option String) × W :=
  let hit1 := intHere env w
  let w1 := tick w (.dvExtract url)
  if hit1 then (.error .ki, w1)
  else if !env.extractOk url then (.ok none, w1)
  else
    let hit2 := intHere env w1
    let w2 := tick w1 (.dvDownload url)
    if hit2 then (.error .ki, w2)
    else if !env.downloadOk url then (.ok none, w2)
    else
      let w3 := { w2 with files := w2.files.map (fun fs => fs ++ env.written url) }
      match w3.files with
      | none => (.ok none, w3)
      | some fs =>
        match firstNonHidden fs with
        | some f => (.ok (some (joinPath dir f)), w3)
        | none => (.ok none, w3)

/-- Effect of a successful `os.remove(path)` on the workspace listing. -/
def removePath (dir path : String) (fs : List String) : List String :=
  fs.filter (fun f => joinPath dir f != path)

/-- main.py:163-168: on a successful download, `os.remove` the artifact under
a bare `try/except: pass` — a failure (even an interrupt) is swallowed. -/
def deleteStep (env : Env) (dir : String) (res : Option String) (w : W) : W :=
  match res with
  | none => w
  | some path =>
    let w1 := { w with events := w.events ++ [Event.removeAttempt path] }
    if env.removeOk path then
      { w1 with files := w1.files.map (removePath dir path) }
    else w1

/-- Levels of the log records the script emits via `logger`. -/
inductive LogLevel where
  | info
  | warning
  | error
deriving DecidableEq

/-- Log records emitted by the post-delete step (main.py:163-168), in order:
when `os.remove` succeeds, the `logger.info("🗑️ Cleaned up: ...")` line runs;
when it raises, the bare `except: pass` catches the exception before any
logging call, so nothing at all is emitted — in particular no warning. -/
def deleteStepLogs (env : Env) (res : Option String) : List LogLevel :=
  match res with
  | none => []
  | some path => if env.removeOk path then [LogLevel.info] else []

/-- One iteration of the main loop (main.py:154-175): `download_video`, the
post-delete step, and — when this is not the last URL — the 10 second sleep. -/
def loopIter (env : Env) (dir url : String) (isLast : Bool) (w : W) :
    Except Exn Unit × W :=
  match download_video env dir url w with
  | (.error e, w1) => (.error e, w1)
  | (.ok res, w1) =>
    let w2 := deleteStep env dir res w1
    if isLast then (.ok (), w2)
    else
      let hit := intHere env w2
      let w3 := tick w2 (.sleepEvt 10)
      if hit then (.error .ki, w3) else (.ok (), w3)

/-- The main loop over the download list (main.py:154-175). -/
def runSequence (env : Env) (dir : String) : List String → W → Except Exn Unit × W
  | [], w => (.ok (), w)
  | u :: rest, w =>
    match loopIter env dir u rest.isEmpty w with
    | (.error e, w1) => (.error e, w1)
    | (.ok _, w1) => runSequence env dir rest w1

/-- main.py:118-125, `YouTubeDownloader.cleanup`: if the workspace exists,
`shutil.rmtree` it; any failure is caught and logged; never raises. -/
def cleanup (env : Env) (w : W) : W :=
  let w1 := { w with events := w.events ++ [Event.cleanupCall] }
  match w1.files with
  | none => w1
  | some _ =>
    let w2 := { w1 with events := w1.events ++ [Event.rmtreeCall] }
    if env.rmtreeOk then { w2 with files := none } else w2

/-- The hardcoded probe URLs (main.py:43-46). -/
def test_urls : List String :=
  ["https://www.youtube.com/watch?v=dQw4w9WgXcQ",
   "https://www.youtube.com/watch?v=jNQXAC9IVRw"]

/-- The hardcoded download targets (main.py:149-152). -/
def test_videos : List String :=
  ["https://www.youtube.com/watch?v=dQw4w9WgXcQ",
   "https://www.youtube.com/watch?v=jNQXAC9IVRw"]

/-- World at the start of a run: empty fresh workspace, nothing logged. -/
def initW : W := { files := some [], clock := 0, events := [] }

/-- The body of `main`'s `try` block (main.py:135-177): probe, early return on
probe failure, otherwise the download loop. -/
def mainBody (env : Env) (dir : String) (w : W) : Except Exn Unit × W :=
  match test_youtube_access env test_urls w with
  | (.error e, w1) => (.error e, w1)
  | (.ok false, w1) => (.ok (), w1)
  | (.ok true, w1) => runSequence env dir test_videos w1

/-- Result of a whole process run: `exitOk` is true iff the process exits
with code 0. -/
structure MainResult where
  exitOk : Bool
  w : W

/-- main.py:127-185, `main` plus the module entry point: `mkdtemp` failure
propagates before the `try` (non-zero exit, nothing attempted); otherwise the
body runs, `KeyboardInterrupt` and `Exception` are both caught, and the
`finally` block runs `cleanup`, after which the process exits 0. -/
def main (env : Env) (dir : String) : MainResult :=
  if env.mkdtempOk then
    let r := mainBody env dir initW
    { exitOk := true, w := cleanup env r.2 }
  else
    { exitOk := false, w := { files := none, clock := 0, events := [] } }

/-- Download-call events (attempts to process a URL in the download loop). -/
def isDl : Event → Bool
  | .dvExtract _ => true
  | .dvDownload _ => true
  | _ => false

/-- Sleep events. -/
def isSleep : Event → Bool
  | .sleepEvt _ => true
  | _ => false

/-- Cleanup-invocation events. -/
def isCleanup : Event → Bool
  | .cleanupCall => true
  | _ => false

/-! ### Concrete environments used as evaluation points -/

/-- A benign environment: everything reachable, one visible artifact written
per download, all filesystem operations succeed, no interrupt. -/
def envBase : Env :=
  { probeOk := fun _ => true, extractOk := fun _ => true,
    downloadOk := fun _ => true, written := fun _ => ["video.mp4"],
    removeOk := fun _ => true, rmtreeOk := true, mkdtempOk := true,
    interruptAt := none }

/-- The collaborator writes a hidden partial file and two visible files, and
the per-file delete fails. -/
def envC1 : Env :=
  { envBase with
    written := fun _ => [".part", "a.mp4", "b.mp4"],
    removeOk := fun _ => false }

/-- Per-file deletes always fail. -/
def envDelay : Env := { envBase with removeOk := fun _ => false }

/-- No probe URL is reachable. -/
def envNoProbe : Env := { envBase with probeOk := fun _ => false }

/-- Only the URL "urlA" is reachable by the probe. -/
def envProbeA : Env := { envBase with probeOk := fun u => u == "urlA" }

/-- The download call reports success but writes only a hidden file. -/
def envNoFile : Env := { envBase with written := fun _ => [".hidden"] }

/-- The download call reports success but writes nothing. -/
def envNoWrite : Env := { envBase with written := fun _ => [] }

/-- Workspace creation fails. -/
def envNoMkdtemp : Env := { envBase with mkdtempOk := false }

/-- The user interrupts the run at its fourth blocking call. -/
def envInterrupted : Env := { envBase with interruptAt := some 3 }

/-- A world whose workspace directory no longer exists. -/
def wNoDir : W := { files := none, clock := 0, events := [] }

/-! ### Helper lemmas (shared) -/

lemma intHere_none (env : Env) (w : W) (h : env.interruptAt = none) :
    intHere env w = false := by
  simp [intHere, h]

lemma tick_files (w : W) (e : Event) : (tick w e).files = w.files := rfl

lemma tick_events (w : W) (e : Event) : (tick w e).events = w.events ++ [e] := rfl

/-- The probe only appends probe-attempt events to the trace. -/
lemma probe_ext (env : Env) (urls : List String) (w : W) :
    ∃ l, (test_youtube_access env urls w).2.events = w.events ++ l ∧
      ∀ e ∈ l, ∃ u, e = Event.probeAttempt u := by
  induction urls generalizing w with
  | nil => exact ⟨[], by simp [test_youtube_access], by simp⟩
  | cons u rest ih =>
    by_cases h1 : intHere env w = true
    · exact ⟨[Event.probeAttempt u], by simp [test_youtube_access, h1, tick],
        by simp⟩
    · by_cases h2 : env.probeOk u = true
      · exact ⟨[Event.probeAttempt u],
          by simp [test_youtube_access, h1, h2, tick], by simp⟩
      · obtain ⟨l, hl, hall⟩ := ih (tick w (Event.probeAttempt u))
        refine ⟨Event.probeAttempt u :: l, ?_, ?_⟩
        · have hstep : test_youtube_access env (u :: rest) w
              = test_youtube_access env rest (tick w (Event.probeAttempt u)) := by
            simp [test_youtube_access, h1, h2]
          rw [hstep, hl, tick_events]
          simp
        · intro e he
          rcases List.mem_cons.mp he with he | he
          · exact ⟨u, he⟩
          · exact hall e he

/-- `download_video` appends exactly the extraction event, or the extraction
event followed by the download event, to the trace. -/
lemma dv_shape (env : Env) (dir url : String) (w : W) :
    (download_video env dir url w).2.events = w.events ++ [Event.dvExtract url] ∨
    (download_video env dir url w).2.events
      = w.events ++ [Event.dvExtract url, Event.dvDownload url] := by
  rcases hI : env.interruptAt with _ | t
  · by_cases h2 : env.extractOk url = true
    · by_cases h4 : env.downloadOk url = true
      · right
        rcases hf : w.files with _ | fs
        · simp [download_video, intHere, hI, tick, hf, h2, h4]
        · rcases hfn : firstNonHidden (fs ++ env.written url) with _ | f <;>
            simp [download_video, intHere, hI, tick, hf, h2, h4, hfn]
      · right; simp [download_video, intHere, hI, tick, h2, h4]
    · left; simp [download_video, intHere, hI, tick, h2]
  · by_cases ht0 : (t == w.clock) = true
    · left; simp [download_video, intHere, hI, tick, ht0]
    · by_cases h2 : env.extractOk url = true
      · by_cases ht1 : (t == w.clock + 1) = true
        · right; simp [download_video, intHere, hI, tick, ht0, h2, ht1]
        · by_cases h4 : env.downloadOk url = true
          · right
            rcases hf : w.files with _ | fs
            · simp [download_video, intHere, hI, tick, hf, ht0, h2, ht1, h4]
            · rcases hfn : firstNonHidden (fs ++ env.written url) with _ | f <;>
                simp [download_video, intHere, hI, tick, hf, ht0, h2, ht1, h4,
                  hfn]
          · right; simp [download_video, intHere, hI, tick, ht0, h2, ht1, h4]
      · left; simp [download_video, intHere, hI, tick, ht0, h2]

/-- `download_video` appends at least the extraction event and only
download-call events to the trace. -/
lemma dv_ext (env : Env) (dir url : String) (w : W) :
    ∃ l, (download_video env dir url w).2.events = w.events ++ l ∧
      Event.dvExtract url ∈ l ∧ ∀ e ∈ l, isDl e = true := by
  rcases dv_shape env dir url w with h | h
  · exact ⟨[Event.dvExtract url], h, by simp, by simp [isDl]⟩
  · exact ⟨[Event.dvExtract url, Event.dvDownload url], h, by simp,
      by simp [isDl]⟩

/-- The happy-path run of `download_video` without interrupts: the collaborator
appends its written files to the workspace, and the first non-hidden entry in
the resulting listing determines the result. -/
lemma dv_run (env : Env) (dir url : String) (w : W) (fs : List String)
    (hint : env.interruptAt = none) (h2 : env.extractOk url = true)
    (h4 : env.downloadOk url = true) (hf : w.files = some fs) :
    download_video env dir url w =
      ((match firstNonHidden (fs ++ env.written url) with
        | some f => Except.ok (some (joinPath dir f))
        | none => Except.ok none),
       { files := some (fs ++ env.written url), clock := w.clock + 1 + 1,
         events := w.events ++ [Event.dvExtract url, Event.dvDownload url] }) := by
  rcases hfn : firstNonHidden (fs ++ env.written url) with _ | f <;>
    simp [download_video, intHere, hint, tick, h2, h4, hf, hfn]

/-- Without an interrupt, `download_video` never raises. -/
lemma dv_ok (env : Env) (dir url : String) (w : W)
    (hint : env.interruptAt = none) :
    ∃ r, (download_video env dir url w).1 = .ok r := by
  by_cases h2 : env.extractOk url = true
  · by_cases h4 : env.downloadOk url = true
    · rcases hf : w.files with _ | fs
      · exact ⟨none, by simp [download_video, intHere, hint, tick, hf, h2, h4]⟩
      · rcases hfn : firstNonHidden (fs ++ env.written url) with _ | f
        · exact ⟨none,
            by simp [download_video, intHere, hint, tick, hf, h2, h4, hfn]⟩
        · exact ⟨some (joinPath dir f),
            by simp [download_video, intHere, hint, tick, hf, h2, h4, hfn]⟩
    · exact ⟨none, by simp [download_video, intHere, hint, tick, h2, h4]⟩
  · exact ⟨none, by simp [download_video, intHere, hint, tick, h2]⟩

lemma isDl_not_sleep {e : Event} (h : isDl e = true) : isSleep e = false := by
  cases e <;> simp_all [isDl, isSleep]

lemma isDl_not_cleanup {e : Event} (h : isDl e = true) : isCleanup e = false := by
  cases e <;> simp_all [isDl, isCleanup]

lemma isSleep_not_cleanup {e : Event} (h : isSleep e = true) :
    isCleanup e = false := by
  cases e <;> simp_all [isSleep, isCleanup]

/-- The post-delete step appends at most one remove-attempt event. -/
lemma deleteStep_ext (env : Env) (dir : String) (res : Option String) (w : W) :
    ∃ l, (deleteStep env dir res w).events = w.events ++ l ∧
      ∀ e ∈ l, ∃ p, e = Event.removeAttempt p := by
  rcases res with _ | path
  · exact ⟨[], by simp [deleteStep], by simp⟩
  · by_cases hr : env.removeOk path = true
    · exact ⟨[Event.removeAttempt path], by simp [deleteStep, hr], by simp⟩
    · exact ⟨[Event.removeAttempt path], by simp [deleteStep, hr], by simp⟩

/-- One loop iteration appends at least the extraction event for its URL, and
only download-call, remove-attempt, or sleep events. -/
lemma iter_ext (env : Env) (dir url : String) (isLast : Bool) (w : W) :
    ∃ l, (loopIter env dir url isLast w).2.events = w.events ++ l ∧
      Event.dvExtract url ∈ l ∧
      ∀ e ∈ l, isDl e = true ∨ (∃ p, e = Event.removeAttempt p) ∨
        isSleep e = true := by
  obtain ⟨l1, h1, hm1, hall1⟩ := dv_ext env dir url w
  rcases hp : download_video env dir url w with ⟨r, w1⟩
  rw [hp] at h1
  dsimp only at h1
  rcases r with e | res
  · exact ⟨l1, by simp [loopIter, hp, h1], hm1,
      fun e he => Or.inl (hall1 e he)⟩
  · obtain ⟨l2, h2, hall2⟩ := deleteStep_ext env dir res w1
    cases isLast with
    | true =>
      refine ⟨l1 ++ l2, ?_, List.mem_append_left _ hm1, ?_⟩
      · rw [show (loopIter env dir url true w).2 = deleteStep env dir res w1
            from by simp [loopIter, hp]]
        rw [h2, h1, List.append_assoc]
      · intro e he
        rcases List.mem_append.mp he with he | he
        · exact Or.inl (hall1 e he)
        · exact Or.inr (Or.inl (hall2 e he))
    | false =>
      refine ⟨l1 ++ l2 ++ [Event.sleepEvt 10], ?_,
        List.mem_append_left _ (List.mem_append_left _ hm1), ?_⟩
      · have h3 : (loopIter env dir url false w).2
            = tick (deleteStep env dir res w1) (Event.sleepEvt 10) := by
          by_cases hs : intHere env (deleteStep env dir res w1) = true <;>
            simp [loopIter, hp, hs]
        rw [h3, tick_events, h2, h1]
        simp [List.append_assoc]
      · intro e he
        rcases List.mem_append.mp he with he | he
        · rcases List.mem_append.mp he with he | he
          · exact Or.inl (hall1 e he)
          · exact Or.inr (Or.inl (hall2 e he))
        · have he' : e = Event.sleepEvt 10 := List.mem_singleton.mp he
          exact Or.inr (Or.inr (by simp [he', isSleep]))

/-- Without an interrupt, one loop iteration succeeds (whatever the download
or remove outcomes are) and sleeps exactly once unless it is the last one. -/
lemma iter_ok (env : Env) (dir url : String) (isLast : Bool) (w : W)
    (hint : env.interruptAt = none) :
    (loopIter env dir url isLast w).1 = Except.ok () ∧
    ∃ l, (loopIter env dir url isLast w).2.events = w.events ++ l ∧
      Event.dvExtract url ∈ l ∧
      l.countP isSleep = (if isLast then 0 else 1) := by
  obtain ⟨r0, hr⟩ := dv_ok env dir url w hint
  obtain ⟨l1, h1, hm1, hall1⟩ := dv_ext env dir url w
  rcases hp : download_video env dir url w with ⟨r, w1⟩
  rw [hp] at hr h1
  dsimp only at hr h1
  subst hr
  obtain ⟨l2, h2, hall2⟩ := deleteStep_ext env dir r0 w1
  have hc1 : l1.countP isSleep = 0 :=
    List.countP_eq_zero.mpr fun e he => by simp [isDl_not_sleep (hall1 e he)]
  have hc2 : l2.countP isSleep = 0 :=
    List.countP_eq_zero.mpr fun e he => by
      obtain ⟨p, hp'⟩ := hall2 e he; simp [hp', isSleep]
  cases isLast with
  | true =>
    refine ⟨by simp [loopIter, hp], l1 ++ l2, ?_,
      List.mem_append_left _ hm1, ?_⟩
    · rw [show (loopIter env dir url true w).2 = deleteStep env dir r0 w1
          from by simp [loopIter, hp]]
      rw [h2, h1, List.append_assoc]
    · simp [List.countP_append, hc1, hc2]
  | false =>
    have hs : intHere env (deleteStep env dir r0 w1) = false :=
      intHere_none env _ hint
    refine ⟨by simp [loopIter, hp, hs], l1 ++ l2 ++ [Event.sleepEvt 10], ?_,
      List.mem_append_left _ (List.mem_append_left _ hm1), ?_⟩
    · rw [show (loopIter env dir url false w).2
          = tick (deleteStep env dir r0 w1) (Event.sleepEvt 10)
          from by simp [loopIter, hp, hs]]
      rw [tick_events, h2, h1]
      simp [List.append_assoc]
    · simp [List.countP_append, hc1, hc2, isSleep]

/-- The download loop appends only download-call, remove-attempt, or sleep
events to the trace (for any environment, interrupts included). -/
lemma seq_ext (env : Env) (dir : String) (urls : List String) (w : W) :
    ∃ l, (runSequence env dir urls w).2.events = w.events ++ l ∧
      ∀ e ∈ l, isDl e = true ∨ (∃ p, e = Event.removeAttempt p) ∨
        isSleep e = true := by
  induction urls generalizing w with
  | nil => exact ⟨[], by simp [runSequence], by simp⟩
  | cons u rest ih =>
    obtain ⟨l1, h1, _, hall1⟩ := iter_ext env dir u rest.isEmpty w
    rcases hp : loopIter env dir u rest.isEmpty w with ⟨r, w1⟩
    rw [hp] at h1
    dsimp only at h1
    rcases r with e | _
    · exact ⟨l1, by simp [runSequence, hp, h1], hall1⟩
    · obtain ⟨l2, h2, hall2⟩ := ih w1
      refine ⟨l1 ++ l2, ?_, ?_⟩
      · rw [show (runSequence env dir (u :: rest) w).2
            = (runSequence env dir rest w1).2 from by simp [runSequence, hp]]
        rw [h2, h1, List.append_assoc]
      · intro e he
        rcases List.mem_append.mp he with he | he
        · exact hall1 e he
        · exact hall2 e he

/-- Without an interrupt the download loop always succeeds, attempts every
URL, sleeps exactly (length - 1) times, and (when the list is non-empty) the
appended trace ends in a non-sleep event. -/
lemma seq_char (env : Env) (dir : String) (urls : List String) (w : W)
    (hint : env.interruptAt = none) :
    (runSequence env dir urls w).1 = Except.ok () ∧
    ∃ l, (runSequence env dir urls w).2.events = w.events ++ l ∧
      (∀ u ∈ urls, Event.dvExtract u ∈ l) ∧
      l.countP isSleep = urls.length - 1 ∧
      (urls ≠ [] → ∃ l0 e, l = l0 ++ [e] ∧ isSleep e = false) := by
  induction urls generalizing w with
  | nil =>
    exact ⟨by simp [runSequence], [], by simp [runSequence], by simp, by simp,
      by simp⟩
  | cons u rest ih =>
    rcases rest with _ | ⟨v, rest'⟩
    · obtain ⟨hok, l1, h1, hm1, hc1⟩ := iter_ok env dir u true w hint
      rcases hp : loopIter env dir u true w with ⟨r, w1⟩
      rw [hp] at hok h1
      dsimp only at hok h1
      subst hok
      have hres : runSequence env dir [u] w = (Except.ok (), w1) := by
        simp [runSequence, hp]
      rw [hres]
      refine ⟨rfl, l1, by simpa using h1, by simpa using hm1, by simpa using hc1,
        fun _ => ?_⟩
      have hne : l1 ≠ [] := by
        intro hcon
        rw [hcon] at hm1
        exact absurd hm1 (List.not_mem_nil _)
      rcases List.eq_nil_or_concat l1 with hcon | ⟨L, b, hL⟩
      · exact absurd hcon hne
      · refine ⟨L, b, by simpa [List.concat_eq_append] using hL, ?_⟩
        have hb : b ∈ l1 := by
          rw [hL]; simp [List.concat_eq_append]
        have := List.countP_eq_zero.mp (by simpa using hc1) b hb
        simpa using this
    · obtain ⟨hok, l1, h1, hm1, hc1⟩ := iter_ok env dir u false w hint
      rcases hp : loopIter env dir u false w with ⟨r, w1⟩
      rw [hp] at hok h1
      dsimp only at hok h1
      subst hok
      obtain ⟨hok2, l2, h2, hm2, hc2, hlast2⟩ := ih w1
      have hres : runSequence env dir (u :: v :: rest') w
          = runSequence env dir (v :: rest') w1 := by
        simp [runSequence, hp]
      rw [hres]
      refine ⟨hok2, l1 ++ l2, ?_, ?_, ?_, fun _ => ?_⟩
      · rw [h2, h1, List.append_assoc]
      · intro x hx
        rcases List.mem_cons.mp hx with hx | hx
        · exact List.mem_append_left _ (hx ▸ hm1)
        · exact List.mem_append_right _ (hm2 x hx)
      · simp only [Bool.false_eq_true, if_false] at hc1
        simp only [List.countP_append, hc1, hc2]
        simp only [List.length_cons]
        omega
      · obtain ⟨l0, e, hl0, he⟩ := hlast2 (by simp)
        exact ⟨l1 ++ l0, e, by rw [hl0, List.append_assoc], he⟩

/-- `cleanup` appends exactly one cleanup-invocation event (followed possibly
by the rmtree event), and no download or sleep events. -/
lemma cleanup_char (env : Env) (w : W) :
    ∃ l, (cleanup env w).events = w.events ++ l ∧ l.countP isCleanup = 1 ∧
      ∀ e ∈ l, isDl e = false ∧ isSleep e = false := by
  rcases hf : w.files with _ | fs
  · exact ⟨[Event.cleanupCall], by simp [cleanup, hf], by decide, by decide⟩
  · by_cases hr : env.rmtreeOk = true
    · exact ⟨[Event.cleanupCall, Event.rmtreeCall],
        by simp [cleanup, hf, hr], by decide, by decide⟩
    · exact ⟨[Event.cleanupCall, Event.rmtreeCall],
        by simp [cleanup, hf, hr], by decide, by decide⟩

/-- The `try` body of `main` never records a cleanup invocation. -/
lemma mainBody_ext (env : Env) (dir : String) (w : W) :
    ∃ l, (mainBody env dir w).2.events = w.events ++ l ∧
      ∀ e ∈ l, isCleanup e = false := by
  obtain ⟨l1, h1, hall1⟩ := probe_ext env test_urls w
  rcases hp : test_youtube_access env test_urls w with ⟨r, w1⟩
  rw [hp] at h1
  dsimp only at h1
  have hall1' : ∀ e ∈ l1, isCleanup e = false := by
    intro e he
    obtain ⟨u, hu⟩ := hall1 e he
    simp [hu, isCleanup]
  rcases r with e | b
  · exact ⟨l1, by simp [mainBody, hp, h1], hall1'⟩
  · cases b with
    | false => exact ⟨l1, by simp [mainBody, hp, h1], hall1'⟩
    | true =>
      obtain ⟨l2, h2, hall2⟩ := seq_ext env dir test_videos w1
      refine ⟨l1 ++ l2, ?_, ?_⟩
      · rw [show (mainBody env dir w).2
            = (runSequence env dir test_videos w1).2
            from by simp [mainBody, hp]]
        rw [h2, h1, List.append_assoc]
      · intro e he
        rcases List.mem_append.mp he with he | he
        · exact hall1' e he
        · rcases hall2 e he with h | h | h
          · exact isDl_not_cleanup h
          · obtain ⟨p, hp'⟩ := h
            simp [hp', isCleanup]
          · exact isSleep_not_cleanup h

/-! ### Claims -/

/-- Claim C1, counterexample: the claim that the workspace holds zero files
once the post-delete step completes is false as stated.  With an empty
workspace, a download call that writes a hidden partial file and two visible
files, and a failing `os.remove` (whose exception main.py:167 swallows),
`download_video` returns a success result, yet after the post-delete step the
workspace still holds all three files. -/
theorem c1_counterexample :
    (download_video envC1 "/ws" "u" initW).1 = Except.ok (some "/ws/a.mp4") ∧
    (loopIter envC1 "/ws" "u" true initW).2.files
      = some [".part", "a.mp4", "b.mp4"] ∧
    (loopIter envC1 "/ws" "u" true initW).2.files ≠ some [] :=
  ⟨rfl, by decide, by decide⟩

/-- Claim C1, amended: if the workspace is empty when the iteration starts,
the collaborator writes exactly one file and it is not hidden, and the
deletion of the artifact succeeds, then a success result from
`download_video` is followed by a post-delete step that leaves the workspace
with zero files. -/
theorem c1_amended_download_then_delete (env : Env) (dir url f : String)
    (isLast : Bool) (w : W) (hint : env.interruptAt = none)
    (hpre : w.files = some []) (hex : env.extractOk url = true)
    (hdl : env.downloadOk url = true) (hw : env.written url = [f])
    (hh : startsWithDot f = false)
    (hrm : env.removeOk (joinPath dir f) = true) :
    (download_video env dir url w).1 = Except.ok (some (joinPath dir f)) ∧
    (loopIter env dir url isLast w).2.files = some [] := by
  have hdv : download_video env dir url w
      = (Except.ok (some (joinPath dir f)),
         { files := some [f], clock := w.clock + 1 + 1,
           events := w.events ++ [Event.dvExtract url, Event.dvDownload url] }) := by
    rw [dv_run env dir url w [] hint hex hdl hpre]
    simp [hw, firstNonHidden, hh]
  refine ⟨by rw [hdv], ?_⟩
  cases isLast with
  | true => simp [loopIter, hdv, deleteStep, hrm, removePath]
  | false =>
    simp [loopIter, hdv, deleteStep, hrm, removePath, tick, intHere, hint]

/-- Claim C1, witness for the amended theorem at a concrete input. -/
theorem c1_witness :
    (download_video envBase "/ws" "u" initW).1
      = Except.ok (some (joinPath "/ws" "video.mp4")) ∧
    (loopIter envBase "/ws" "u" true initW).2.files = some [] :=
  c1_amended_download_then_delete envBase "/ws" "u" "video.mp4" true initW
    rfl rfl rfl rfl rfl rfl rfl

/-- Claim C2: in a run whose workspace was created, if the connectivity probe
returns false then the whole run records no download-call event at all — the
download loop is never invoked. -/
theorem c2_no_download_without_probe (env : Env) (dir : String)
    (hmk : env.mkdtempOk = true)
    (hprobe : (test_youtube_access env test_urls initW).1 = Except.ok false) :
    (main env dir).w.events.countP isDl = 0 := by
  obtain ⟨l1, h1, hall1⟩ := probe_ext env test_urls initW
  rcases hp : test_youtube_access env test_urls initW with ⟨r, w1⟩
  rw [hp] at h1 hprobe
  dsimp only at h1 hprobe
  subst hprobe
  have hbody : mainBody env dir initW = (Except.ok (), w1) := by
    simp [mainBody, hp]
  have hmain : (main env dir).w = cleanup env w1 := by
    simp [main, hmk, hbody]
  obtain ⟨l2, h2, _, hall2⟩ := cleanup_char env w1
  rw [hmain, h2, h1]
  have hd1 : l1.countP isDl = 0 := List.countP_eq_zero.mpr fun e he => by
    obtain ⟨u, hu⟩ := hall1 e he
    simp [hu, isDl]
  have hd2 : l2.countP isDl = 0 := List.countP_eq_zero.mpr fun e he => by
    simp [(hall2 e he).1]
  simp [List.countP_append, hd1, hd2, initW]

/-- Claim C2, witness: with no probe URL reachable, the run records zero
download-call events. -/
theorem c2_witness : (main envNoProbe "/ws").w.events.countP isDl = 0 :=
  c2_no_download_without_probe envNoProbe "/ws" rfl rfl

/-- Claim C3: in any run whose workspace was created — whatever the probe,
download, remove, and rmtree outcomes, and wherever (if anywhere) the user
interrupt fires — `cleanup` is invoked exactly once before the process
exits. -/
theorem c3_cleanup_exactly_once (env : Env) (dir : String)
    (hmk : env.mkdtempOk = true) :
    (main env dir).w.events.countP isCleanup = 1 := by
  obtain ⟨l1, h1, hall1⟩ := mainBody_ext env dir initW
  rcases hb : mainBody env dir initW with ⟨r, w1⟩
  rw [hb] at h1
  dsimp only at h1
  have hmain : (main env dir).w = cleanup env w1 := by
    simp [main, hmk, hb]
  obtain ⟨l2, h2, hc2, _⟩ := cleanup_char env w1
  rw [hmain, h2, h1]
  have hc1 : l1.countP isCleanup = 0 := List.countP_eq_zero.mpr fun e he => by
    simp [hall1 e he]
  simp [List.countP_append, hc1, hc2, initW]

/-- Claim C3, witness: a run interrupted mid-download still invokes `cleanup`
exactly once. -/
theorem c3_witness :
    (main envInterrupted "/ws").w.events.countP isCleanup = 1 :=
  c3_cleanup_exactly_once envInterrupted "/ws" rfl

/-- Claim C4: without an interrupt, the probe returns true iff some URL
succeeds, and its trace records exactly the failing prefix of URLs followed
by the first succeeding one (if any): the first success short-circuits, a
per-URL failure advances, and the probe is false iff every URL fails. -/
theorem c4_probe_short_circuit (env : Env) (urls : List String) (w : W)
    (hint : env.interruptAt = none) :
    (test_youtube_access env urls w).1 = Except.ok (urls.any env.probeOk) ∧
    (test_youtube_access env urls w).2.events = w.events
      ++ ((urls.takeWhile (fun u => !env.probeOk u)
          ++ (urls.dropWhile (fun u => !env.probeOk u)).take 1).map
            Event.probeAttempt) := by
  induction urls generalizing w with
  | nil => simp [test_youtube_access]
  | cons u rest ih =>
    by_cases h2 : env.probeOk u = true
    · constructor
      · simp [test_youtube_access, intHere, hint, h2]
      · simp [test_youtube_access, intHere, hint, h2, tick,
          List.takeWhile_cons, List.dropWhile_cons]
    · obtain ⟨ih1, ih2⟩ := ih (tick w (Event.probeAttempt u))
      have hstep : test_youtube_access env (u :: rest) w
          = test_youtube_access env rest (tick w (Event.probeAttempt u)) := by
        simp [test_youtube_access, intHere, hint, h2]
      constructor
      · rw [hstep, ih1]
        simp [h2]
      · rw [hstep, ih2, tick_events]
        simp [h2, List.takeWhile_cons, List.dropWhile_cons,
          List.append_assoc]

/-- Claim C4, witness: probe list `[urlA (reachable), urlB (unreachable)]` —
the probe returns true and attempts only urlA. -/
theorem c4_witness :
    (test_youtube_access envProbeA ["urlA", "urlB"] initW).1
      = Except.ok ((["urlA", "urlB"]).any envProbeA.probeOk) ∧
    (test_youtube_access envProbeA ["urlA", "urlB"] initW).2.events
      = initW.events
        ++ (((["urlA", "urlB"]).takeWhile (fun u => !envProbeA.probeOk u)
            ++ ((["urlA", "urlB"]).dropWhile
                (fun u => !envProbeA.probeOk u)).take 1).map
              Event.probeAttempt) :=
  c4_probe_short_circuit envProbeA ["urlA", "urlB"] initW rfl

/-- Claim C5: if the collaborator calls complete without raising but the
workspace holds no non-hidden file afterwards, `download_video` returns the
"artifact not found" failure (`None`), not a success result. -/
theorem c5_artifact_not_found (env : Env) (dir url : String) (w : W)
    (fs : List String) (hint : env.interruptAt = none)
    (hpre : w.files = some fs) (hex : env.extractOk url = true)
    (hdl : env.downloadOk url = true)
    (hnone : firstNonHidden (fs ++ env.written url) = none) :
    (download_video env dir url w).1 = Except.ok none := by
  rw [dv_run env dir url w fs hint hex hdl hpre]
  dsimp only
  rw [hnone]

/-- Claim C5, witness: a download that reports success but writes only a
hidden file yields the `None` failure. -/
theorem c5_witness :
    (download_video envNoFile "/ws" "urlX" initW).1 = Except.ok none :=
  c5_artifact_not_found envNoFile "/ws" "urlX" initW [] rfl rfl rfl rfl rfl

/-- Claim C6: if workspace creation fails, the process exits non-zero and the
run records no event at all — in particular no probe attempt and no download
attempt. -/
theorem c6_mkdtemp_failure_fatal (env : Env) (dir : String)
    (hmk : env.mkdtempOk = false) :
    (main env dir).exitOk = false ∧ (main env dir).w.events = [] := by
  simp [main, hmk]

/-- Claim C6, witness. -/
theorem c6_witness :
    (main envNoMkdtemp "/ws").exitOk = false ∧
    (main envNoMkdtemp "/ws").w.events = [] :=
  c6_mkdtemp_failure_fatal envNoMkdtemp "/ws" rfl

/-- Claim C7, counterexample: the claim says a failure while deleting the
per-iteration artifact is "swallowed and logged as a warning", but the delete
is guarded by a bare `try/except: pass` (main.py:164-168) that logs nothing:
at a concrete input where `os.remove` fails, the post-delete step emits no
log record at all — in particular no warning — even though the run still
completes. -/
theorem c7_counterexample :
    envDelay.removeOk "/ws/video.mp4" = false ∧
    deleteStepLogs envDelay (some "/ws/video.mp4") = [] ∧
    LogLevel.warning ∉ deleteStepLogs envDelay (some "/ws/video.mp4") ∧
    (runSequence envDelay "/ws" ["urlA"] initW).1 = Except.ok () :=
  ⟨rfl, rfl, by decide, rfl⟩

/-- Claim C7, amended: a failure while deleting the per-iteration artifact is
swallowed silently — the bare except emits no log record, in particular no
warning — and never terminates the run: without an interrupt the download
loop returns success for every environment (in particular when every
deletion fails) and every URL of the list is still attempted. -/
theorem c7_amended_silent_swallow (env : Env) (dir : String)
    (urls : List String) (w : W) (hint : env.interruptAt = none) :
    (runSequence env dir urls w).1 = Except.ok () ∧
    (∀ u ∈ urls, Event.dvExtract u ∈ (runSequence env dir urls w).2.events) ∧
    ∀ path, env.removeOk path = false →
      deleteStepLogs env (some path) = [] := by
  obtain ⟨hok, l, hl, hm, _, _⟩ := seq_char env dir urls w hint
  refine ⟨hok, fun u hu => by
    rw [hl]
    exact List.mem_append_right _ (hm u hu), ?_⟩
  intro path hpath
  simp [deleteStepLogs, hpath]

/-- Claim C7, witness: with every `os.remove` failing, the two-URL loop still
completes, the second URL is attempted, and the failed delete logs nothing. -/
theorem c7_witness :
    (runSequence envDelay "/ws" ["urlA", "urlB"] initW).1 = Except.ok () ∧
    Event.dvExtract "urlB"
      ∈ (runSequence envDelay "/ws" ["urlA", "urlB"] initW).2.events ∧
    deleteStepLogs envDelay (some "/ws/video.mp4") = [] :=
  ⟨(c7_amended_silent_swallow envDelay "/ws" ["urlA", "urlB"] initW rfl).1,
   (c7_amended_silent_swallow envDelay "/ws" ["urlA", "urlB"] initW rfl).2.1
     "urlB" (by simp),
   (c7_amended_silent_swallow envDelay "/ws" ["urlA", "urlB"] initW rfl).2.2
     "/ws/video.mp4" rfl⟩

/-- Claim C8: without an interrupt, a non-empty download loop sleeps exactly
(length - 1) times — once between each pair of consecutive items — and the
final event of the run's trace is never the sleep, so no delay follows the
last item. -/
theorem c8_delay_between_not_after (env : Env) (dir : String)
    (urls : List String) (w : W) (hint : env.interruptAt = none)
    (hne : urls ≠ []) :
    (runSequence env dir urls w).2.events.countP isSleep
      = w.events.countP isSleep + (urls.length - 1) ∧
    (runSequence env dir urls w).2.events.getLast?
      ≠ some (Event.sleepEvt 10) := by
  obtain ⟨_, l, hl, _, hc, hlast⟩ := seq_char env dir urls w hint
  obtain ⟨l0, e, hl0, he⟩ := hlast hne
  constructor
  · rw [hl, List.countP_append, hc]
  · rw [hl, hl0]
    have hg : (w.events ++ (l0 ++ [e])).getLast? = some e := by
      rw [← List.append_assoc, List.getLast?_concat]
    rw [hg]
    simp only [ne_eq, Option.some.injEq]
    intro hcon
    rw [hcon] at he
    simp [isSleep] at he

/-- Claim C8, witness: a two-URL loop sleeps exactly once, and not at the
end. -/
theorem c8_witness :
    (runSequence envBase "/ws" ["urlA", "urlB"] initW).2.events.countP isSleep
      = initW.events.countP isSleep
        + ((["urlA", "urlB"] : List String).length - 1) ∧
    (runSequence envBase "/ws" ["urlA", "urlB"] initW).2.events.getLast?
      ≠ some (Event.sleepEvt 10) :=
  c8_delay_between_not_after envBase "/ws" ["urlA", "urlB"] initW rfl
    (by simp)

/-- Claim C9: `download_video` picks the first non-hidden file of the
workspace listing with no check that the current call produced it — if a
non-hidden file already exists before the call, the call returns success with
that pre-existing file's path even though the collaborator wrote nothing. -/
theorem c9_preexisting_file_returned (env : Env) (dir url : String) (w : W)
    (fs : List String) (f : String) (hint : env.interruptAt = none)
    (hpre : w.files = some fs) (hex : env.extractOk url = true)
    (hdl : env.downloadOk url = true) (hw : env.written url = [])
    (hf : firstNonHidden fs = some f) :
    (download_video env dir url w).1 = Except.ok (some (joinPath dir f)) := by
  rw [dv_run env dir url w fs hint hex hdl hpre]
  dsimp only
  rw [hw, List.append_nil, hf]

/-- Claim C9, witness: a stale file left in the workspace is returned as the
artifact of a download that wrote nothing. -/
theorem c9_witness :
    (download_video envNoWrite "/ws" "urlX"
      { files := some ["stale.mp4"], clock := 0, events := [] }).1
      = Except.ok (some (joinPath "/ws" "stale.mp4")) :=
  c9_preexisting_file_returned envNoWrite "/ws" "urlX"
    { files := some ["stale.mp4"], clock := 0, events := [] }
    ["stale.mp4"] "stale.mp4" rfl rfl rfl rfl rfl rfl

/-- Claim C10: `cleanup` is total by construction (it returns a world and
never raises), and invoking it when the workspace directory no longer exists
— including a second invocation after a successful one — leaves the
filesystem state unchanged. -/
theorem c10_cleanup_idempotent (env : Env) (w : W) (h : w.files = none) :
    (cleanup env w).files = w.files ∧
    (cleanup env (cleanup env w)).files = w.files := by
  have h1 : (cleanup env w).files = w.files := by simp [cleanup, h]
  refine ⟨h1, ?_⟩
  have h2 : (cleanup env w).files = none := h1.trans h
  simp [cleanup, h2, h]

/-- Claim C10, witness. -/
theorem c10_witness :
    (cleanup envBase wNoDir).files = wNoDir.files ∧
    (cleanup envBase (cleanup envBase wNoDir)).files = wNoDir.files :=
  c10_cleanup_idempotent envBase wNoDir rfl

end YTRail
